import Mathlib

/-!
Verification development for the XML serialization core of xml5ever
(`src/xml5ever/src/serialize/mod.rs`, `src/xml5ever/src/util/mod.rs`,
`src/markup5ever/lib.rs`).

The Rust code is shallowly embedded: interned atoms (`Namespace`, `Prefix`,
`LocalName`) become `String`; `Option<Namespace>` becomes `Option String`;
`BTreeMap<Option<Namespace>, Vec<Prefix>>` becomes an association list keyed
by `Option String` (only `get`, `get_mut` and `insert` are used, so lookup
order over distinct keys is the only observable behaviour); the io sink
becomes an append-only `String`; fallible io results become
`Except String`.  Since Rust field names such as `prefix` collide with Lean
keywords, prefix-valued fields and functions use the abbreviation `Pfx`,
documented at each definition.
-/

/-- The interned namespace url `ns!(xml)` from markup5ever. -/
def xmlNamespace : String := "http://www.w3.org/XML/1998/namespace"

/-- The interned namespace url `ns!(xmlns)` from markup5ever. -/
def xmlnsNamespace : String := "http://www.w3.org/2000/xmlns/"

/-- The interned namespace url `ns!(html)` from markup5ever. -/
def htmlNamespace : String := "http://www.w3.org/1999/xhtml"

/-- Embeds `util::is_xml_char` (xml5ever `src/util/mod.rs`). -/
def is_xml_char (c : Char) : Bool :=
  let n := c.toNat
  n == 0x09 || n == 0x0A || n == 0x0D ||
  (0x20 ≤ n && n ≤ 0xD7FF) || (0xE000 ≤ n && n ≤ 0xFFFD) ||
  (0x10000 ≤ n && n ≤ 0x10FFFF)

/-- Embeds `util::is_name_start_char` (xml5ever `src/util/mod.rs`). -/
def is_name_start_char (c : Char) : Bool :=
  let n := c.toNat
  n == 0x3A || n == 0x5F ||
  (0x61 ≤ n && n ≤ 0x7A) || (0x41 ≤ n && n ≤ 0x5A) ||
  (0xC0 ≤ n && n ≤ 0xD6) || (0xD8 ≤ n && n ≤ 0xF6) ||
  (0xF8 ≤ n && n ≤ 0x2FF) || (0x370 ≤ n && n ≤ 0x37D) ||
  (0x37F ≤ n && n ≤ 0x1FFF) || (0x200C ≤ n && n ≤ 0x200D) ||
  (0x2070 ≤ n && n ≤ 0x218F) || (0x2C00 ≤ n && n ≤ 0x2FEF) ||
  (0x3001 ≤ n && n ≤ 0xD7FF) || (0xF900 ≤ n && n ≤ 0xFDCF) ||
  (0xFDF0 ≤ n && n ≤ 0xFFFD) || (0x10000 ≤ n && n ≤ 0xEFFFF)

/-- Embeds `util::is_name_char` (xml5ever `src/util/mod.rs`). -/
def is_name_char (c : Char) : Bool :=
  let n := c.toNat
  n == 0x3A || n == 0x5F || n == 0x2D || n == 0x2E || n == 0xB7 ||
  (0x61 ≤ n && n ≤ 0x7A) || (0x41 ≤ n && n ≤ 0x5A) ||
  (0x30 ≤ n && n ≤ 0x39) ||
  (0xC0 ≤ n && n ≤ 0xD6) || (0xD8 ≤ n && n ≤ 0xF6) ||
  (0xF8 ≤ n && n ≤ 0x2FF) || (0x370 ≤ n && n ≤ 0x37D) ||
  (0x37F ≤ n && n ≤ 0x1FFF) || (0x200C ≤ n && n ≤ 0x200D) ||
  (0x2070 ≤ n && n ≤ 0x218F) || (0x2C00 ≤ n && n ≤ 0x2FEF) ||
  (0x300 ≤ n && n ≤ 0x36F) || (0x203F ≤ n && n ≤ 0x2040) ||
  (0x3001 ≤ n && n ≤ 0xD7FF) || (0xF900 ≤ n && n ≤ 0xFDCF) ||
  (0xFDF0 ≤ n && n ≤ 0xFFFD) || (0x10000 ≤ n && n ≤ 0xEFFFF)

/-- Embeds `serialize::matches_rules`: all chars of the string satisfy the
predicate (the Rust early exit is observationally the same). -/
def matches_rules (haystack : String) (needle_fn : Char → Bool) : Bool :=
  haystack.toList.all needle_fn

/-- Embeds the Rust `str::contains(":")` tests: containment of a one-char
substring is containment of that char. -/
def containsChar (s : String) (c : Char) : Bool :=
  s.toList.any (fun a => a == c)

/-- Embeds `markup5ever::is_void_element`. -/
def is_void_element (l : String) : Bool :=
  l == "area" || l == "base" || l == "basefont" || l == "bgsound" ||
  l == "br" || l == "col" || l == "embed" || l == "frame" ||
  l == "hr" || l == "img" || l == "input" || l == "keygen" ||
  l == "link" || l == "meta" || l == "param" || l == "source" ||
  l == "track" || l == "wbr"

/-- Embeds `markup5ever::EqStr for Option<Atom>`: true iff the option holds
an atom equal to the given string. -/
def optEqStr (o : Option String) (s : String) : Bool :=
  match o with
  | some a => a == s
  | none => false

/-- Embeds `serialize::map_opt_atom`: the contained atom, or the empty
string for `None`. -/
def map_opt_atom (o : Option String) : String :=
  match o with
  | some a => a
  | none => ""

/-- Embeds `serialize::opt_eq`: the option holds a value equal to `cmp`. -/
def opt_eq (o : Option String) (cmp : String) : Bool :=
  match o with
  | some v => v == cmp
  | none => false

/-- Lookup in the association list embedding of
`BTreeMap<Option<Namespace>, Vec<Prefix>>` (the Rust `map.get(ns)`). -/
def mapLookup : List (Option String × List String) → Option String → Option (List String)
  | [], _ => none
  | e :: rest, ns => if e.fst = ns then some e.snd else mapLookup rest ns

/-- The `add` path on the underlying list: push onto the existing candidate
list of the key, else insert a fresh singleton entry (insert position in the
`BTreeMap` is unobservable through `get`, so appending at the end is a
faithful embedding). -/
def addEntry : List (Option String × List String) → Option String → String → List (Option String × List String)
  | [], ns, p => [(ns, [p])]
  | e :: rest, ns, p =>
    if e.fst = ns then (e.fst, e.snd ++ [p]) :: rest else e :: addEntry rest ns p

/-- Embeds `serialize::NamespacePrefixMap`: keys are optional namespaces,
values are ordered candidate-prefix lists. -/
structure NamespacePrefixMap where
  map : List (Option String × List String)
deriving DecidableEq

/-- Embeds `NamespacePrefixMap::new`: a wholly empty map. -/
def NamespacePrefixMap.new : NamespacePrefixMap := ⟨[]⟩

/-- Embeds `impl Default for NamespacePrefixMap`: seeded with the built-in
binding of the XML namespace to the literal "xml". -/
def NamespacePrefixMap.default : NamespacePrefixMap := ⟨[(some xmlNamespace, ["xml"])]⟩

/-- The loop body of `retrieve_preferred_prefix`: walk the candidates
carrying the last prefix seen, stopping at the preferred one. -/
def scanLoop (preferredPfx : String) : List String → String → String
  | [], last => last
  | p :: rest, _ => if p == preferredPfx then p else scanLoop preferredPfx rest p

/-- Embeds `NamespacePrefixMap::retrieve_preferred_prefix` (`Pfx`
abbreviates the Rust word for a namespace shorthand).  The source indexes
`candidates_list[0]`, which is unreachable for an empty list under the
documented non-emptiness precondition; the empty-list arm returns `none`
in place of that panic. -/
def NamespacePrefixMap.retrievePreferredPfx (m : NamespacePrefixMap) (ns : Option String)
    (preferredPfx : String) : Option String :=
  match mapLookup m.map ns with
  | some candidates_list =>
    match candidates_list with
    | [] => none
    | c :: cs => some (scanLoop preferredPfx (c :: cs) c)
  | none => none

/-- Embeds `NamespacePrefixMap::find_prefix`: whether any candidate for the
namespace equals the given string. -/
def NamespacePrefixMap.findPfx (m : NamespacePrefixMap) (ns : Option String) (p : String) : Bool :=
  match mapLookup m.map ns with
  | some candidates_list => candidates_list.any (fun q => q == p)
  | none => false

/-- Embeds `NamespacePrefixMap::add`. -/
def NamespacePrefixMap.add (m : NamespacePrefixMap) (ns : Option String) (p : String) :
    NamespacePrefixMap :=
  ⟨addEntry m.map ns p⟩

/-- Bool form of the spec invariant: every entry of the map owns a
non-empty candidate list. -/
def allNonEmpty (m : NamespacePrefixMap) : Bool :=
  m.map.all (fun e => !e.snd.isEmpty)

/-- C10: a freshly `new`-constructed map has no keys, so both lookups miss
for every namespace (the XML one included) and every candidate string. -/
theorem new_map_empty_lookups (ns : Option String) (q : String) :
    NamespacePrefixMap.retrievePreferredPfx NamespacePrefixMap.new ns q = none ∧
    NamespacePrefixMap.findPfx NamespacePrefixMap.new ns q = false :=
  ⟨rfl, rfl⟩

lemma scanLoop_mem (pref : String) :
    ∀ (l : List String) (last : String), pref ∈ l → scanLoop pref l last = pref := by
  intro l
  induction l with
  | nil => intro last h; cases h
  | cons p rest ih =>
    intro last h
    by_cases hp : p == pref
    · simp [scanLoop, hp]
      exact eq_of_beq hp
    · have hmem : pref ∈ rest := by
        rcases List.mem_cons.mp h with h1 | h2
        · exact absurd (by simp [h1]) hp
        · exact h2
      simp [scanLoop, hp]
      exact ih p hmem

lemma getLast?_cons_getD (q : String) (t : List String) (a b : String) :
    ((q :: t).getLast?).getD a = ((q :: t).getLast?).getD b := by
  induction t generalizing q with
  | nil => simp [List.getLast?]
  | cons r s ih => rw [List.getLast?_cons_cons]; exact ih r

lemma scanLoop_not_mem (pref : String) :
    ∀ (l : List String) (last : String), pref ∉ l →
      scanLoop pref l last = (l.getLast?).getD last := by
  intro l
  induction l with
  | nil => intro last _; simp [scanLoop]
  | cons p rest ih =>
    intro last h
    have hp : (p == pref) = false := by
      simp only [List.mem_cons, not_or] at h
      simp [beq_iff_eq]
      exact fun hpe => h.1 hpe.symm
    have hmem : pref ∉ rest := by
      simp only [List.mem_cons, not_or] at h
      exact h.2
    simp only [scanLoop, hp, Bool.false_eq_true, if_false]
    rw [ih p hmem]
    cases rest with
    | nil => simp [List.getLast?]
    | cons q t => rw [List.getLast?_cons_cons, getLast?_cons_getD q t p last]

/-- C5: `retrieve_preferred_prefix` returns nothing when the namespace has
no candidate list; with a non-empty candidate list it returns the preferred
string when recorded, else the last (most recently added) candidate.  The
embedding is a pure function of the map, so the map itself is untouched. -/
theorem retrievePreferredPfx_spec (m : NamespacePrefixMap) (ns : Option String) (pref : String) :
    (mapLookup m.map ns = none →
      NamespacePrefixMap.retrievePreferredPfx m ns pref = none) ∧
    (∀ l, mapLookup m.map ns = some l → l ≠ [] →
      NamespacePrefixMap.retrievePreferredPfx m ns pref =
        (if pref ∈ l then some pref else l.getLast?)) := by
  constructor
  · intro h
    simp [NamespacePrefixMap.retrievePreferredPfx, h]
  · intro l hl hne
    simp only [NamespacePrefixMap.retrievePreferredPfx, hl]
    cases l with
    | nil => exact absurd rfl hne
    | cons c cs =>
      show some (scanLoop pref (c :: cs) c) = _
      by_cases hmem : pref ∈ c :: cs
      · rw [scanLoop_mem pref (c :: cs) c hmem]
        simp [hmem]
      · rw [scanLoop_not_mem pref (c :: cs) c hmem]
        simp only [hmem, if_false]
        have hs : ((c :: cs).getLast?).isSome := List.getLast?_isSome.mpr (by simp)
        rcases Option.isSome_iff_exists.mp hs with ⟨x, hg⟩
        simp [hg]

/-- Witness for C5 at the default map: the preferred string "q" is not
recorded for the XML namespace, so the last candidate "xml" is returned. -/
theorem retrievePreferredPfx_spec_witness :
    NamespacePrefixMap.retrievePreferredPfx NamespacePrefixMap.default (some xmlNamespace) "q" =
      some "xml" :=
  (retrievePreferredPfx_spec NamespacePrefixMap.default (some xmlNamespace) "q").2
    ["xml"] rfl (by simp)

/-- Embeds `markup5ever::QualName`: a (prefix, namespace, local name)
triple.  The Rust field `prefix` is `pfx` here and `local` is `local_name`
(both are Lean keywords). -/
structure QualName where
  pfx : Option String
  ns : String
  local_name : String
deriving DecidableEq

/-- Embeds `AttrRef = (&QualName, &str)`: one attribute with its value. -/
structure Attr where
  name : QualName
  value : String
deriving DecidableEq

/-- Embeds `LocalPrefixMap = HashMap<Prefix, Namespace>` as an association
list; `insert` overwrites an existing key, like the HashMap. -/
def lpmInsert : List (String × String) → String → String → List (String × String)
  | [], k, v => [(k, v)]
  | e :: rest, k, v => if e.fst = k then (k, v) :: rest else e :: lpmInsert rest k v

/-- `HashMap::get` on the association list embedding. -/
def lpmGet : List (String × String) → String → Option String
  | [], _ => none
  | e :: rest, k => if e.fst = k then some e.snd else lpmGet rest k

/-- `HashMap::contains_key` on the association list embedding. -/
def lpmContains (m : List (String × String)) (k : String) : Bool :=
  (lpmGet m k).isSome

/-- The attribute loop of
`XmlSerializer::recording_namespace_information`, threading the scratch
map, the local prefixes map and the default-namespace attribute value. -/
def recordingLoop (map : NamespacePrefixMap) (lpm : List (String × String))
    (dflt : Option String) :
    List Attr → NamespacePrefixMap × List (String × String) × Option String
  | [] => (map, lpm, dflt)
  | attr :: rest =>
    if attr.name.ns = "xmlns" then
      match attr.name.pfx with
      | none => recordingLoop map lpm (some attr.value) rest
      | some _ =>
        let pfxDefinition := attr.name.local_name
        if attr.value = xmlNamespace then
          recordingLoop map lpm dflt rest
        else
          let namespaceDefinition : Option String :=
            if attr.value = "" then none else some attr.value
          if NamespacePrefixMap.findPfx map namespaceDefinition pfxDefinition then
            recordingLoop map lpm dflt rest
          else
            recordingLoop (map.add namespaceDefinition pfxDefinition)
              (lpmInsert lpm pfxDefinition (map_opt_atom namespaceDefinition)) dflt rest
    else
      recordingLoop map lpm dflt rest

/-- Embeds `XmlSerializer::recording_namespace_information`: scans the
attributes for namespace declarations (the source tests the attribute
namespace against the literal string "xmlns" via `eq_str`), records
prefixed declarations into the scratch map and the local prefixes map, and
returns the value of a bare `xmlns` attribute if there was one. -/
def recording_namespace_information (map : NamespacePrefixMap)
    (local_prefixes_map : List (String × String)) (attrs : List Attr) :
    NamespacePrefixMap × List (String × String) × Option String :=
  recordingLoop map local_prefixes_map none attrs

lemma mapLookup_addEntry_self (l : List (Option String × List String)) (ns : Option String)
    (p : String) :
    mapLookup (addEntry l ns p) ns = some ((mapLookup l ns).getD [] ++ [p]) := by
  induction l with
  | nil => simp [addEntry, mapLookup]
  | cons e rest ih =>
    by_cases he : e.fst = ns
    · simp [addEntry, mapLookup, he]
    · simp [addEntry, mapLookup, he, ih]

lemma mapLookup_addEntry_ne (l : List (Option String × List String)) (ns : Option String)
    (p : String) (target : Option String) (h : target ≠ ns) :
    mapLookup (addEntry l ns p) target = mapLookup l target := by
  induction l with
  | nil =>
    have h2 : ¬ ns = target := fun hc => h hc.symm
    simp [addEntry, mapLookup, h2]
  | cons e rest ih =>
    have h2 : ¬ ns = target := fun hc => h hc.symm
    by_cases he : e.fst = ns
    · have hne : ¬ e.fst = target := fun hc => h ((hc ▸ he) : target = ns)
      simp [addEntry, mapLookup, he, hne, h2]
    · by_cases ht : e.fst = target
      · simp [addEntry, mapLookup, he, ht, h, h2]
      · simp [addEntry, mapLookup, he, ht, h, h2, ih]

lemma addEntry_allNonEmpty (l : List (Option String × List String)) (ns : Option String)
    (p : String) (h : l.all (fun e => !e.snd.isEmpty) = true) :
    (addEntry l ns p).all (fun e => !e.snd.isEmpty) = true := by
  induction l with
  | nil => simp [addEntry]
  | cons e rest ih =>
    simp only [List.all_cons, Bool.and_eq_true] at h
    by_cases he : e.fst = ns
    · simp [addEntry, he, h.2]
    · simp [addEntry, he, h.1, ih h.2]

lemma add_allNonEmpty (m : NamespacePrefixMap) (ns : Option String) (p : String)
    (h : allNonEmpty m = true) : allNonEmpty (m.add ns p) = true :=
  addEntry_allNonEmpty m.map ns p h

lemma findPfx_add (m : NamespacePrefixMap) (ns target : Option String) (p q : String)
    (h : NamespacePrefixMap.findPfx m target q = true) :
    NamespacePrefixMap.findPfx (m.add ns p) target q = true := by
  unfold NamespacePrefixMap.findPfx at h ⊢
  by_cases ht : target = ns
  · subst ht
    rw [show (m.add target p).map = addEntry m.map target p from rfl,
      mapLookup_addEntry_self]
    cases hl : mapLookup m.map target with
    | none => rw [hl] at h; exact absurd h (by simp)
    | some l =>
      rw [hl] at h
      simp only [Option.getD_some, List.any_append, Bool.or_eq_true]
      exact Or.inl h
  · rw [show (m.add ns p).map = addEntry m.map ns p from rfl,
      mapLookup_addEntry_ne _ _ _ _ ht]
    exact h

lemma recordingLoop_lookup_preserved (attrs : List Attr) :
    ∀ (map : NamespacePrefixMap) (lpm : List (String × String)) (dflt : Option String),
      mapLookup ((recordingLoop map lpm dflt attrs).1).map (some xmlNamespace) =
        mapLookup map.map (some xmlNamespace) := by
  induction attrs with
  | nil => intro map lpm dflt; rfl
  | cons attr rest ih =>
    intro map lpm dflt
    unfold recordingLoop
    by_cases hns : attr.name.ns = "xmlns"
    · simp only [hns, if_true, if_pos rfl]
      cases hp : attr.name.pfx with
      | none => exact ih map lpm (some attr.value)
      | some s =>
        by_cases hv : attr.value = xmlNamespace
        · simp only [hv, if_pos rfl]
          exact ih map lpm dflt
        · simp only [hv, if_false, if_neg hv]
          by_cases hf : NamespacePrefixMap.findPfx map
              (if attr.value = "" then none else some attr.value) attr.name.local_name = true
          · simp only [hf, if_pos rfl]
            exact ih map lpm dflt
          · simp only [Bool.not_eq_true] at hf
            simp only [hf, Bool.false_eq_true, if_false]
            rw [ih]
            exact mapLookup_addEntry_ne map.map _ _ _ (by
              by_cases hz : attr.value = ""
              · simp [hz]
              · simp only [hz, if_neg hz]
                intro hcontra
                exact hv (Option.some_injective _ hcontra).symm)
    · simp only [hns, if_false, if_neg hns]
      exact ih map lpm dflt

lemma recordingLoop_allNonEmpty (attrs : List Attr) :
    ∀ (map : NamespacePrefixMap) (lpm : List (String × String)) (dflt : Option String),
      allNonEmpty map = true → allNonEmpty (recordingLoop map lpm dflt attrs).1 = true := by
  induction attrs with
  | nil => intro map lpm dflt h; exact h
  | cons attr rest ih =>
    intro map lpm dflt h
    unfold recordingLoop
    by_cases hns : attr.name.ns = "xmlns"
    · simp only [hns, if_pos rfl]
      cases hp : attr.name.pfx with
      | none => exact ih map lpm (some attr.value) h
      | some s =>
        by_cases hv : attr.value = xmlNamespace
        · simp only [hv, if_pos rfl]
          exact ih map lpm dflt h
        · simp only [hv, if_neg hv]
          by_cases hf : NamespacePrefixMap.findPfx map
              (if attr.value = "" then none else some attr.value) attr.name.local_name = true
          · simp only [hf, if_pos rfl]
            exact ih map lpm dflt h
          · simp only [Bool.not_eq_true] at hf
            simp only [hf, Bool.false_eq_true, if_false]
            exact ih _ _ dflt (add_allNonEmpty map _ _ h)
    · simp only [hns, if_neg hns]
      exact ih map lpm dflt h

lemma recordingLoop_findPfx_xml (attrs : List Attr) (map : NamespacePrefixMap)
    (lpm : List (String × String)) (dflt : Option String) (q : String) :
    NamespacePrefixMap.findPfx (recordingLoop map lpm dflt attrs).1 (some xmlNamespace) q =
      NamespacePrefixMap.findPfx map (some xmlNamespace) q := by
  unfold NamespacePrefixMap.findPfx
  rw [recordingLoop_lookup_preserved]

/-- A single mutation of a namespace prefix map: either a direct `add`, or
a whole `recording_namespace_information` pass over an attribute list. -/
inductive MapOp where
  | addOp (ns : Option String) (p : String)
  | recordOp (attrs : List Attr)

/-- Applies one `MapOp` to a map, as the serializer would. -/
def applyMapOp (m : NamespacePrefixMap) : MapOp → NamespacePrefixMap
  | .addOp ns p => m.add ns p
  | .recordOp attrs => (recording_namespace_information m [] attrs).1

lemma foldl_mapOp_inv (ops : List MapOp) :
    ∀ m : NamespacePrefixMap, allNonEmpty m = true →
      NamespacePrefixMap.findPfx m (some xmlNamespace) "xml" = true →
      allNonEmpty (List.foldl applyMapOp m ops) = true ∧
      NamespacePrefixMap.findPfx (List.foldl applyMapOp m ops) (some xmlNamespace) "xml" = true := by
  induction ops with
  | nil => intro m h1 h2; exact ⟨h1, h2⟩
  | cons op rest ih =>
    intro m h1 h2
    simp only [List.foldl_cons]
    cases op with
    | addOp ns p => exact ih _ (add_allNonEmpty m ns p h1) (findPfx_add m ns _ p "xml" h2)
    | recordOp attrs =>
      refine ih _ (recordingLoop_allNonEmpty attrs m [] none h1) ?_
      show NamespacePrefixMap.findPfx (recordingLoop m [] none attrs).1 _ _ = true
      rw [recordingLoop_findPfx_xml]
      exact h2

/-- C6: starting from the default map and applying any sequence of `add`
and recording operations, every key owns a non-empty candidate list, the
built-in XML-namespace binding to "xml" stays present, and a recording
pass never touches the XML-namespace key at all (prefixed declarations
whose value is the XML namespace are skipped). -/
theorem map_invariant_nonempty_and_xml_binding (ops : List MapOp) :
    allNonEmpty (List.foldl applyMapOp NamespacePrefixMap.default ops) = true ∧
    NamespacePrefixMap.findPfx (List.foldl applyMapOp NamespacePrefixMap.default ops)
      (some xmlNamespace) "xml" = true ∧
    (∀ (m : NamespacePrefixMap) (lpm : List (String × String)) (attrs : List Attr),
      mapLookup ((recording_namespace_information m lpm attrs).1).map (some xmlNamespace) =
        mapLookup m.map (some xmlNamespace)) := by
  have base := foldl_mapOp_inv ops NamespacePrefixMap.default (by rfl) (by
    show NamespacePrefixMap.findPfx NamespacePrefixMap.default (some xmlNamespace) "xml" = true
    rfl)
  exact ⟨base.1, base.2, fun m lpm attrs => recordingLoop_lookup_preserved attrs m lpm none⟩

/-- Embeds `serialize::SerializeOpts` (the `traversal_scope` field is
omitted: none of the embedded operations reads it). -/
structure SerializeOpts where
  require_well_formed : Bool
  context_namespace : Option String
  prefix_map : NamespacePrefixMap
  prefix_index : Nat
deriving DecidableEq

/-- Embeds `impl Default for SerializeOpts`. -/
def SerializeOpts.default : SerializeOpts :=
  { require_well_formed := true
    context_namespace := none
    prefix_map := NamespacePrefixMap.default
    prefix_index := 1 }

/-- Embeds `serialize::ElemInfo`: one stack frame per open element. -/
structure ElemInfo where
  skip_end_tag : Bool
  qualified_name : String
deriving DecidableEq

/-- Embeds `impl Default for ElemInfo`. -/
def ElemInfo.default : ElemInfo :=
  { skip_end_tag := false, qualified_name := "" }

/-- Embeds `serialize::XmlSerializer`: the io sink is the append-only
`writer` string. -/
structure XmlSerializer where
  writer : String
  opts : SerializeOpts
  skip_end_tag : Bool
  stack : List ElemInfo
deriving DecidableEq

/-- Embeds `XmlSerializer::new` over a fresh sink. -/
def XmlSerializer.new (opts : SerializeOpts) : XmlSerializer :=
  { writer := "", opts := opts, skip_end_tag := false, stack := [] }

/-- Embeds `serialize::generate_prefix` (`Pfx` abbreviates the Rust word
for a namespace shorthand): produce "ns" ++ index, bump the index, record
the pair into the scratch map. -/
def generatePfx (map : NamespacePrefixMap) (new_namespace : String) (opts : SerializeOpts) :
    String × NamespacePrefixMap × SerializeOpts :=
  let generated : String := "ns" ++ toString opts.prefix_index
  let opts := { opts with prefix_index := opts.prefix_index + 1 }
  let map := map.add (some new_namespace) generated
  (generated, map, opts)

/-- The char loop of `XmlSerializer::serialize_attr_value`, returning the
escaped text (the run aborts on the first illegal char, so the bytes the
sink received before an error are not observable through any claim). -/
def escapeAttrChars (wf : Bool) : List Char → Except String String
  | [] => .ok ""
  | c :: cs =>
    if c = '&' then (escapeAttrChars wf cs).map (fun r => "&amp;" ++ r)
    else if c = '>' then (escapeAttrChars wf cs).map (fun r => "&gt;" ++ r)
    else if c = '<' then (escapeAttrChars wf cs).map (fun r => "&lt;" ++ r)
    else if c = '\"' then (escapeAttrChars wf cs).map (fun r => "&quot;" ++ r)
    else if wf && !(is_xml_char c) then .error "Character is not a valid XML"
    else (escapeAttrChars wf cs).map (fun r => String.singleton c ++ r)

/-- Embeds `XmlSerializer::serialize_attr_value` as a function from the
value to the escaped text written to the sink. -/
def serialize_attr_value (wf : Bool) (v : String) : Except String String :=
  escapeAttrChars wf v.toList

/-- The per-char tail of the element local-name check in `start_elem`
(3.2.1.1 point 1): every non-leading char must be an XML name char. -/
def validate_name_rest : List Char → Except String Unit
  | [] => .ok ()
  | c :: cs =>
    if is_name_char c then validate_name_rest cs
    else .error "Local name cannot contain this character."

/-- The well-formedness check on an element local name in `start_elem`
(3.2.1.1 point 1): no colon, a name-start first char, name chars after. -/
def validate_local_name (l : String) : Except String Unit :=
  if containsChar l ':' then .error "Local name cannot contain a colon."
  else
    match l.toList with
    | [] => .ok ()
    | c :: cs =>
      if is_name_start_char c then validate_name_rest cs
      else .error "Local name cannot start with this character."

/-- Result of the attribute pass: the sink text, the scratch map and the
options (whose `prefix_index` the pass may bump). -/
structure AttrsOut where
  writer : String
  map : NamespacePrefixMap
  opts : SerializeOpts
deriving DecidableEq

/-- The attribute loop of `XmlSerializer::serialize_elem_attrs`,
carrying the duplicate-detection set (`localname_set`).  Faithfully kept
from the source: in the non-xmlns namespaced branch the candidate from
`retrieve_preferred_prefix` is NOT replaced by the freshly generated one,
and the inline declaration's value is the attribute's value. -/
def serializeAttrsLoop (opts : SerializeOpts) (writer : String) (map : NamespacePrefixMap)
    (local_prefixes_map : List (String × String)) (ignore_namespace_definition : Bool)
    (localname_set : List (String × String)) :
    List Attr → Except String AttrsOut
  | [] => .ok { writer := writer, map := map, opts := opts }
  | attr :: rest =>
    let tuple : String × String := (attr.name.ns, attr.name.local_name)
    if opts.require_well_formed && localname_set.contains tuple then
      .error "Serialization of attribute would fail to produce a well-formed element"
    else
      let localname_set := tuple :: localname_set
      let step : Except String (Option (String × NamespacePrefixMap × SerializeOpts × Option String)) :=
        if attr.name.ns ≠ "" then
          let searchPfx := match attr.name.pfx with
            | some t => t
            | none => ""
          let candidatePfx := map.retrievePreferredPfx (some attr.name.ns) searchPfx
          if attr.name.ns = xmlnsNamespace then
            let redeclare_xml_namespace := attr.value = xmlNamespace
            let ignored_ns_def := ignore_namespace_definition && attr.name.pfx.isNone
            let redefine_namespace :=
              match attr.name.pfx with
              | some _ =>
                let ln := attr.name.local_name
                let ns_attr_value : Option String := some attr.value
                let found_in_local := lpmGet local_prefixes_map ln
                let previously_defined := NamespacePrefixMap.findPfx opts.prefix_map ns_attr_value ln
                let attr_local_not_in_local_pref_map := found_in_local.isNone
                let attr_local_in_already :=
                  found_in_local.isSome && decide (found_in_local ≠ ns_attr_value)
                (attr_local_in_already || attr_local_not_in_local_pref_map) && previously_defined
              | none => false
            if redeclare_xml_namespace || ignored_ns_def || redefine_namespace then
              .ok none
            else if opts.require_well_formed && attr.value = xmlnsNamespace then
              .error "Creation of XMLNS namespace is allowed only under strict qualifications"
            else if opts.require_well_formed && attr.value = "" then
              .error "Namespace declarations cannot be used to undeclare a namespace"
            else
              .ok (some (writer, map, opts, some "xmlns"))
          else
            match generatePfx map attr.name.ns opts with
            | (generated, map, opts) =>
              let writer := writer ++ " xmlns:" ++ generated ++ "=\""
              match serialize_attr_value opts.require_well_formed attr.value with
              | .error e => .error e
              | .ok esc => .ok (some (writer ++ esc ++ "\"", map, opts, candidatePfx))
        else
          .ok (some (writer, map, opts, none))
      match step with
      | .error e => .error e
      | .ok none =>
        serializeAttrsLoop opts writer map local_prefixes_map ignore_namespace_definition
          localname_set rest
      | .ok (some (writer, map, opts, candidatePfx)) =>
        let writer := writer ++ " "
        let writer :=
          match candidatePfx with
          | some cp => writer ++ cp ++ ":"
          | none => writer
        if opts.require_well_formed &&
            (containsChar attr.name.local_name ':' ||
              !(matches_rules attr.name.local_name is_xml_char) ||
              (attr.name.local_name = "xmlns" && attr.name.ns = "")) then
          .error "Serialization of attribute would fail to produce a well-formed element"
        else
          match serialize_attr_value opts.require_well_formed attr.value with
          | .error e => .error e
          | .ok esc =>
            serializeAttrsLoop opts (writer ++ attr.name.local_name ++ "=\"" ++ esc ++ "\"")
              map local_prefixes_map ignore_namespace_definition localname_set rest

/-- Embeds `XmlSerializer::serialize_elem_attrs`. -/
def serialize_elem_attrs (opts : SerializeOpts) (writer : String) (attributes : List Attr)
    (map : NamespacePrefixMap) (local_prefixes_map : List (String × String))
    (ignore_namespace_definition : Bool) : Except String AttrsOut :=
  serializeAttrsLoop opts writer map local_prefixes_map ignore_namespace_definition [] attributes

/-- Result of the qualified-name resolution part of `start_elem`
(3.2.1.1 points 9 to 12). -/
structure ResolvedName where
  writer : String
  qualified_name : String
  ignore_namespace_definition : Bool
  map : NamespacePrefixMap
  opts : SerializeOpts
deriving DecidableEq

/-- The match on the inherited namespace inside `start_elem` (3.2.1.1
points 9 to 12).  Faithfully kept from the source: `retrieve_preferred_prefix`
is consulted with the INHERITED namespace (not the element's own), and the
source has no `else` between the candidate branch and the own-shorthand
branch, so both may run, each appending to `qualified_name` and writing it
whole.  The source also stores updates into `inherited_ns`, but that
variable is never read after the match, so the dead stores are omitted. -/
def resolve_qualified_name (opts : SerializeOpts) (writer : String) (name : QualName)
    (map : NamespacePrefixMap) (local_prefixes_map : List (String × String))
    (local_default_namespace : Option String) : Except String ResolvedName :=
  let ns := name.ns
  if opts.context_namespace = some ns then
    let ignore_namespace_definition := local_default_namespace.isSome
    let qualified_name :=
      if ns = xmlNamespace then "xml:" ++ name.local_name else name.local_name
    .ok { writer := writer ++ qualified_name, qualified_name := qualified_name,
          ignore_namespace_definition := ignore_namespace_definition, map := map, opts := opts }
  else
    let pfx := name.pfx
    let candidatePfx := map.retrievePreferredPfx opts.context_namespace (map_opt_atom pfx)
    if optEqStr pfx "xmlns" && opts.require_well_formed then
      .error "An Element with the reserved xmlns shorthand will not legally round-trip"
    else
      let candidatePfx := if optEqStr pfx "xmlns" then pfx else candidatePfx
      let (writer, qualified_name) :=
        match candidatePfx with
        | some cp =>
          let qualified_name := cp ++ ":" ++ name.local_name
          (writer ++ qualified_name, qualified_name)
        | none => (writer, "")
      match pfx with
      | some p0 =>
        match (if lpmContains local_prefixes_map p0 then generatePfx map ns opts
               else (p0, map, opts)) with
        | (somePfx, map, opts) =>
          let map := map.add (some ns) somePfx
          let qualified_name := qualified_name ++ somePfx ++ ":" ++ name.local_name
          let writer := writer ++ qualified_name
          let writer := writer ++ " xmlns:" ++ somePfx ++ "=\""
          match serialize_attr_value opts.require_well_formed ns with
          | .error e => .error e
          | .ok esc =>
            .ok { writer := writer ++ esc ++ "\"", qualified_name := qualified_name,
                  ignore_namespace_definition := false, map := map, opts := opts }
      | none =>
        if local_default_namespace.isNone ||
            (local_default_namespace.isSome && opt_eq local_default_namespace ns) then
          let qualified_name := qualified_name ++ name.local_name
          let writer := writer ++ qualified_name
          let writer := writer ++ " xmlns=\""
          match serialize_attr_value opts.require_well_formed ns with
          | .error e => .error e
          | .ok esc =>
            .ok { writer := writer ++ esc ++ "\"", qualified_name := qualified_name,
                  ignore_namespace_definition := true, map := map, opts := opts }
        else if opt_eq local_default_namespace ns then
          let qualified_name := qualified_name ++ name.local_name
          .ok { writer := writer ++ qualified_name, qualified_name := qualified_name,
                ignore_namespace_definition := false, map := map, opts := opts }
        else
          .ok { writer := writer, qualified_name := qualified_name,
                ignore_namespace_definition := false, map := map, opts := opts }

/-- Embeds `Serializer::start_elem for XmlSerializer` (3.2.1.1).  The
field-shorthand `skip_end_tag` pushed in the source refers to the
serializer field set at points 4 and 14, i.e. to `ignore_children`; the
source locals (the sink prefix, the recording result triple,
`ignore_children`, `empty_node`) are inlined at their use sites. -/
def start_elem (s : XmlSerializer) (name : QualName) (attrs : List Attr) (leaf_node : Bool) :
    Except String XmlSerializer :=
  match (if s.opts.require_well_formed then validate_local_name name.local_name
         else Except.ok ()) with
  | .error e => .error e
  | .ok _ =>
    match resolve_qualified_name s.opts (s.writer ++ "<") name
        (recording_namespace_information s.opts.prefix_map [] attrs).1
        (recording_namespace_information s.opts.prefix_map [] attrs).2.1
        (recording_namespace_information s.opts.prefix_map [] attrs).2.2 with
    | .error e => .error e
    | .ok r =>
      match serialize_elem_attrs r.opts r.writer attrs r.map
          (recording_namespace_information s.opts.prefix_map [] attrs).2.1
          r.ignore_namespace_definition with
      | .error e => .error e
      | .ok a =>
        .ok { writer := a.writer ++
                (if (name.ns == htmlNamespace && leaf_node && is_void_element name.local_name)
                 then " /"
                 else if (name.ns != htmlNamespace && leaf_node) then "/" else "") ++ ">",
              opts := a.opts,
              skip_end_tag :=
                (name.ns == htmlNamespace && leaf_node && is_void_element name.local_name),
              stack :=
                { skip_end_tag :=
                    (name.ns == htmlNamespace && leaf_node && is_void_element name.local_name),
                  qualified_name := r.qualified_name } :: s.stack }

/-- Embeds `Serializer::end_elem for XmlSerializer`: pop a frame (a
default one, after a diagnostic, when the stack is empty — the `warn` is a
log-side diagnostic, not sink output), then either skip or write the
captured close tag.  The html-template arm of the source (3.2.1.1 point
18) is an empty TODO and performs nothing. -/
def end_elem (s : XmlSerializer) (_name : QualName) : Except String XmlSerializer :=
  match s.stack with
  | [] =>
    let info := ElemInfo.default
    if info.skip_end_tag then .ok { s with stack := [] }
    else
      .ok { s with writer := s.writer ++ "</" ++ info.qualified_name ++ ">", stack := [] }
  | info :: rest =>
    if info.skip_end_tag then .ok { s with stack := rest }
    else
      .ok { s with writer := s.writer ++ "</" ++ info.qualified_name ++ ">", stack := rest }

def c1S0 : XmlSerializer := XmlSerializer.new SerializeOpts.default

def c1Parent : QualName := { pfx := none, ns := "", local_name := "root" }

def c1Attrs : List Attr :=
  [{ name := { pfx := some "xmlns", ns := "xmlns", local_name := "p" }, value := "urn:a" }]

/-- C1: the recording pass does add the declared binding ("urn:a", "p") to
the scratch copy of the map, yet after the element's `start_elem` returns,
the ambient `opts.prefix_map` (the map every later `start_elem`, including
a descendant's, clones) is unchanged — the scratch copy is dropped, so the
binding is NOT visible to descendants, contrary to the claim. -/
theorem start_elem_scratch_map_not_propagated :
    NamespacePrefixMap.findPfx
      (recording_namespace_information SerializeOpts.default.prefix_map [] c1Attrs).1
      (some "urn:a") "p" = true ∧
    (start_elem c1S0 c1Parent c1Attrs false).toOption.map (fun s1 => s1.opts.prefix_map) =
      some c1S0.opts.prefix_map :=
  ⟨rfl, by rfl⟩

def c2S0 : XmlSerializer :=
  XmlSerializer.new { SerializeOpts.default with context_namespace := some xmlNamespace }

def c2Name : QualName := { pfx := none, ns := "urn:x", local_name := "e" }

/-- C2: with inherited namespace = the XML namespace and an element in the
unrelated namespace "urn:x" with no own shorthand, the code retrieves a
candidate for the INHERITED namespace (yielding "xml"), uses it, and then
— because the source lacks an `else` — also runs the unprefixed branch,
appending to and re-writing the qualified name: the sink receives
"<xml:exml:ee xmlns=\x22urn:x\x22>" instead of one resolution case. -/
theorem start_elem_misresolves_via_inherited_ns :
    (start_elem c2S0 c2Name [] false).toOption.map (fun s => s.writer) =
      some "<xml:exml:ee xmlns=\"urn:x\">" := by
  rfl

def c3S0 : XmlSerializer := XmlSerializer.new SerializeOpts.default

def c3Name : QualName := { pfx := some "p", ns := "urn:X", local_name := "e" }

def c3Attrs : List Attr :=
  [{ name := { pfx := none, ns := "urn:Y", local_name := "a" }, value := "v" }]

/-- C3: for an attribute in namespace "urn:Y" with no resolvable candidate,
the code generates "ns1" and declares it inline, but the declaration value
is the ATTRIBUTE VALUE "v" (not "urn:Y"), and the attribute itself is
written WITHOUT the "ns1:" shorthand, because the retrieved (empty)
candidate is never replaced by the generated one. -/
theorem attr_generated_shorthand_not_used :
    (start_elem c3S0 c3Name c3Attrs false).toOption.map (fun s => s.writer) =
      some "<p:e xmlns:p=\"urn:X\" xmlns:ns1=\"v\" a=\"v\">" := by
  rfl

/-- C4: every successful non-self-closing `start_elem` pushes one frame
with the captured qualified-name text and an unset skip flag, and the
matching `end_elem` (non-empty stack) writes exactly "</" ++ that captured
text ++ ">", independent of the close call's name argument. -/
theorem end_elem_writes_captured_qualified_name (s : XmlSerializer) (name : QualName)
    (attrs : List Attr) (leaf_node : Bool) (s1 : XmlSerializer)
    (hok : start_elem s name attrs leaf_node = .ok s1)
    (hnv : (name.ns == htmlNamespace && leaf_node && is_void_element name.local_name) = false) :
    s1.stack.tail = s.stack ∧
    (s1.stack.headD ElemInfo.default).skip_end_tag = false ∧
    ∀ closeName : QualName, end_elem s1 closeName =
      .ok { s1 with
            writer := s1.writer ++ "</" ++
              (s1.stack.headD ElemInfo.default).qualified_name ++ ">",
            stack := s.stack } := by
  unfold start_elem at hok
  split at hok
  · exact Except.noConfusion hok
  · split at hok
    · exact Except.noConfusion hok
    · split at hok
      · exact Except.noConfusion hok
      · injection hok with h
        subst h
        refine ⟨rfl, hnv, ?_⟩
        intro closeName
        simp [end_elem, hnv]

def c4S0 : XmlSerializer := XmlSerializer.new SerializeOpts.default

def c4Name : QualName := { pfx := none, ns := "", local_name := "a" }

def c4S1 : XmlSerializer :=
  { writer := "<a xmlns=\"\">", opts := SerializeOpts.default, skip_end_tag := false,
    stack := [{ skip_end_tag := false, qualified_name := "a" }] }

/-- Witness for C4: after opening a plain element `a`, the close call (here
deliberately given a different name) writes the captured "</a>". -/
theorem end_elem_writes_captured_qualified_name_witness :
    end_elem c4S1 { pfx := none, ns := "zzz", local_name := "other" } =
      .ok { c4S1 with
            writer := c4S1.writer ++ "</" ++
              (c4S1.stack.headD ElemInfo.default).qualified_name ++ ">",
            stack := c4S0.stack } :=
  (end_elem_writes_captured_qualified_name c4S0 c4Name [] false c4S1 (by rfl) (by rfl)).2.2
    { pfx := none, ns := "zzz", local_name := "other" }

def c7S0 : XmlSerializer :=
  XmlSerializer.new { SerializeOpts.default with context_namespace := some "urn:u" }

def c7Name : QualName := { pfx := some "xmlns", ns := "urn:u", local_name := "e" }

/-- Counterexample to C7 as stated: well-formedness is on and the element
carries the literal "xmlns" as its shorthand, yet because the inherited
namespace equals the element namespace, `start_elem` succeeds (the equal
branch drops the shorthand without looking at it). -/
theorem xmlns_shorthand_ok_when_ns_equal :
    c7S0.opts.require_well_formed = true ∧
    c7Name.pfx = some "xmlns" ∧
    start_elem c7S0 c7Name [] false =
      .ok { writer := "<e>", opts := c7S0.opts, skip_end_tag := false,
            stack := [{ skip_end_tag := false, qualified_name := "e" }] } :=
  ⟨rfl, rfl, by rfl⟩

lemma resolve_error_of_xmlns (opts : SerializeOpts) (writer : String) (name : QualName)
    (map : NamespacePrefixMap) (local_prefixes_map : List (String × String))
    (local_default_namespace : Option String)
    (hwf : opts.require_well_formed = true)
    (hpfx : name.pfx = some "xmlns")
    (hne : opts.context_namespace ≠ some name.ns) :
    resolve_qualified_name opts writer name map local_prefixes_map local_default_namespace =
      .error "An Element with the reserved xmlns shorthand will not legally round-trip" := by
  unfold resolve_qualified_name
  rw [if_neg hne]
  have hopt : optEqStr name.pfx "xmlns" = true := by rw [hpfx]; rfl
  simp [hopt, hwf]

/-- C7 amended: the literal-"xmlns" element shorthand is fatal under
well-formedness only in the unequal-namespace branch; the hypothesis
excludes the equal case in which the shorthand is silently dropped. -/
theorem xmlns_shorthand_error_when_ns_unequal (s : XmlSerializer) (name : QualName)
    (attrs : List Attr) (leaf_node : Bool)
    (hwf : s.opts.require_well_formed = true)
    (hpfx : name.pfx = some "xmlns")
    (hne : s.opts.context_namespace ≠ some name.ns) :
    (start_elem s name attrs leaf_node).toOption = none := by
  unfold start_elem
  split
  · rfl
  · rw [resolve_error_of_xmlns s.opts (s.writer ++ "<") name
      (recording_namespace_information s.opts.prefix_map [] attrs).1
      (recording_namespace_information s.opts.prefix_map [] attrs).2.1
      (recording_namespace_information s.opts.prefix_map [] attrs).2.2 hwf hpfx hne]
    rfl

/-- Witness for C7 amended: with no context namespace the unequal branch is
taken and the "xmlns" shorthand aborts the open. -/
theorem xmlns_shorthand_error_when_ns_unequal_witness :
    (start_elem (XmlSerializer.new SerializeOpts.default) c7Name [] false).toOption = none :=
  xmlns_shorthand_error_when_ns_unequal (XmlSerializer.new SerializeOpts.default) c7Name [] false
    rfl rfl (by decide)

def c8S0 : XmlSerializer := XmlSerializer.new SerializeOpts.default

def c8Name : QualName := { pfx := none, ns := "", local_name := "a" }

/-- Counterexample to C8 as stated: a close call on an empty stack does
write to the sink — the popped default frame has an unset skip flag and an
empty captured name, so the three bytes "</>" are emitted (the claim said
nothing is written). -/
theorem end_elem_empty_stack_writes_close :
    end_elem c8S0 c8Name = .ok { c8S0 with writer := "</>" } ∧ ("</>" : String) ≠ "" :=
  ⟨by rfl, by decide⟩

/-- C8 amended: a close call with an empty stack pops a default frame,
emits only a log diagnostic, and successfully writes the degenerate close
tag "</" ++ empty captured name ++ ">" to the sink. -/
theorem end_elem_empty_stack_spec (s : XmlSerializer) (name : QualName) (h : s.stack = []) :
    end_elem s name =
      .ok { s with
            writer := s.writer ++ "</" ++ ElemInfo.default.qualified_name ++ ">",
            stack := [] } := by
  unfold end_elem
  rw [h]
  rfl

/-- Witness for C8 amended at a concrete fresh serializer. -/
theorem end_elem_empty_stack_spec_witness :
    end_elem c8S0 c8Name =
      .ok { c8S0 with
            writer := c8S0.writer ++ "</" ++ ElemInfo.default.qualified_name ++ ">",
            stack := [] } :=
  end_elem_empty_stack_spec c8S0 c8Name rfl

def c9Attr : Attr := { name := { pfx := none, ns := "", local_name := "1a" }, value := "v" }

/-- Counterexample to C9 as stated: the attribute local name "1a" violates
the element-name conditions (its first char fails the name-start
predicate, and element validation rejects it), yet the attribute pass
accepts it unchanged — attribute names are only checked for colon,
valid-XML chars and the bare "xmlns". -/
theorem attr_local_name_lax_check :
    (serialize_elem_attrs SerializeOpts.default "" [c9Attr]
        NamespacePrefixMap.default [] false).toOption.map (fun a => a.writer) =
      some " 1a=\"v\"" ∧
    is_name_start_char '1' = false ∧
    (validate_local_name "1a").toOption = none :=
  ⟨by rfl, by rfl, by rfl⟩

/-- C9 amended: under well-formedness, an ordinary no-namespace attribute
is rejected exactly when its local name contains a colon, contains a char
outside the valid-XML-char set, or is the bare "xmlns" with its empty
namespace — not under the element-name (name-start/name-char) grammar. -/
theorem attr_local_name_check_spec (ln : String) :
    ((serialize_elem_attrs SerializeOpts.default ""
        [{ name := { pfx := none, ns := "", local_name := ln }, value := "v" }]
        NamespacePrefixMap.default [] false).toOption = none)
      ↔ (containsChar ln ':' = true ∨ matches_rules ln is_xml_char = false ∨ ln = "xmlns") := by
  unfold serialize_elem_attrs serializeAttrsLoop
  simp only [List.contains]
  split
  next h => simp [SerializeOpts.default] at h
  next h =>
    rw [if_neg (by decide : ¬ (("" : String) ≠ ""))]
    dsimp only
    split
    next hc =>
      simp only [Except.toOption, true_iff]
      have hreq : SerializeOpts.default.require_well_formed = true := rfl
      rw [hreq] at hc
      have hc2 := hc
      simp only [Bool.true_and, decide_True, Bool.and_true, Bool.or_eq_true,
        Bool.not_eq_true', decide_eq_true_iff] at hc2
      tauto
    next hc =>
      have hreq : SerializeOpts.default.require_well_formed = true := rfl
      rw [hreq] at hc
      rw [show serialize_attr_value SerializeOpts.default.require_well_formed "v" =
        Except.ok "v" from rfl]
      simp only [Bool.true_and, decide_True, Bool.and_true, Bool.or_eq_true,
        Bool.not_eq_true', decide_eq_true_iff, not_or] at hc
      simp [serializeAttrsLoop, Except.toOption, hc.1.1, hc.1.2, hc.2]
